import Mathlib

/- Verification of the question-answering pipeline of this repository
   (handler/query_enhancer.py, handler/retriever.py, handler/generator.py,
   handler/run.py) against its specification.

   Modelling conventions (shallow embedding):
   * External services (the text-generation model, the embedding model, the
     vector index) are passed in as oracle parameters; each network call site
     in the Python code consults the corresponding oracle.
   * Python floats are modelled as rationals; Python strings as `String`,
     manipulated as `List Char` where the code slices/scans them.
   * `json.loads` is modelled by an executable recursive-descent parser
     (`jsonLoads`) following the grammar CPython's json module accepts
     (strict mode): objects, arrays, double-quoted strings with the standard
     escapes, numbers, true/false/null plus NaN, Infinity and -Infinity.
     Numeric literals are kept as their lexeme (no floating point is needed
     by any property below).  Surrogate-pair combination of \u escapes is
     not modelled (no property touches \u escapes).
   * A fallible Python function is modelled as returning `Except String _`;
     an uncaught exception is an `Except.error` carrying `str(e)`. -/

set_option maxHeartbeats 1000000

/-- JSON values as produced by `json.loads`.  Object fields keep their parse
order; duplicate keys are resolved to the last occurrence on lookup, as a
Python dict built left to right would. -/
inductive Json where
  | obj (fields : List (String × Json)) : Json
  | arr (items : List Json) : Json
  | str (s : String) : Json
  | num (lit : String) : Json
  | bool (b : Bool) : Json
  | null : Json

instance : Inhabited Json := ⟨Json.null⟩

/-- Whitespace the CPython json parser skips between tokens. -/
def isJsonWs (c : Char) : Bool := (String.toList " \t\n\r").contains c

def skipWs (l : List Char) : List Char := l.dropWhile isJsonWs

def hexVal (c : Char) : Option Nat :=
  if c.isDigit then some (c.toNat - 48)
  else
    (let u := c.toLower
     if 'a' ≤ u ∧ u ≤ 'f' then some (u.toNat - 87) else none)

/-- The two-character escapes of the JSON grammar, as a lookup from the
escape letter to the character it denotes. -/
def escChar (c : Char) : Option Char :=
  ((String.toList "\"\\/bfnrt").zip (String.toList "\"\\/\x08\x0c\n\r\t")).lookup c

/-- Body of a JSON string literal after the opening quote: returns the decoded
string and the input after the closing quote.  Raw control characters below
0x20 are rejected (json.loads strict mode). -/
def parseStringBody : List Char → List Char → Option (String × List Char)
  | [], _ => none
  | '"' :: rest, acc => some (String.mk acc.reverse, rest)
  | '\\' :: rest, acc =>
    (match rest with
     | [] => none
     | c :: r2 =>
       if c == 'u' then
         match r2 with
         | h1 :: h2 :: h3 :: h4 :: r3 =>
           (match hexVal h1, hexVal h2, hexVal h3, hexVal h4 with
            | some a, some b, some v3, some d =>
              parseStringBody r3 (Char.ofNat (((a * 16 + b) * 16 + v3) * 16 + d) :: acc)
            | _, _, _, _ => none)
         | _ => none
       else
         match escChar c with
         | some e => parseStringBody r2 (e :: acc)
         | none => none)
  | c :: rest, acc =>
    if c.toNat < 32 then none else parseStringBody rest (c :: acc)

def digitsOf (l : List Char) : List Char := l.takeWhile Char.isDigit

/-- A literal token of the grammar (`true`, `false`, `null` and the CPython
extras `NaN`, `Infinity`, `-Infinity`): accepted when it prefixes the
input. -/
def litTok (w : String) (j : Json) (l : List Char) : Option (Json × List Char) :=
  if l.take w.length = w.toList then some (j, l.drop w.length) else none

/-- Integer part of a JSON number: `0 | [1-9][0-9]*`. -/
def parseIntPart : List Char → Option (List Char × List Char)
  | '0' :: rest => some ([ '0'], rest)
  | l =>
    (let ds := digitsOf l
     if ds.isEmpty then none else some (ds, l.drop ds.length))

/-- Optional fraction part `(\.[0-9]+)?`; consumes nothing on mismatch. -/
def parseFracPart (l : List Char) : List Char × List Char :=
  match l with
  | '.' :: rest =>
    (let ds := digitsOf rest
     if ds.isEmpty then ([], l) else ('.' :: ds, rest.drop ds.length))
  | _ => ([], l)

/-- Optional exponent part `([eE][-+]?[0-9]+)?`; consumes nothing on mismatch. -/
def parseExpPart (l : List Char) : List Char × List Char :=
  match l with
  | e :: rest =>
    if e == 'e' || e == 'E' then
      match rest with
      | s :: rest2 =>
        if s == '+' || s == '-' then
          (let ds := digitsOf rest2
           if ds.isEmpty then ([], e :: rest) else (e :: s :: ds, rest2.drop ds.length))
        else
          (let ds := digitsOf rest
           if ds.isEmpty then ([], e :: rest) else (e :: ds, rest.drop ds.length))
      | [] => ([], [e])
    else ([], e :: rest)
  | [] => ([], [])

/-- A JSON numeric literal, kept as its lexeme. -/
def parseNumber (l : List Char) : Option (Json × List Char) :=
  match l with
  | '-' :: r =>
    (match parseIntPart r with
     | none => none
     | some (ip, l2) =>
       let fe := parseFracPart l2
       let ee := parseExpPart fe.2
       some (Json.num (String.mk ('-' :: (ip ++ fe.1 ++ ee.1))), ee.2))
  | _ =>
    (match parseIntPart l with
     | none => none
     | some (ip, l2) =>
       let fe := parseFracPart l2
       let ee := parseExpPart fe.2
       some (Json.num (String.mk (ip ++ fe.1 ++ ee.1)), ee.2))

mutual

/-- One JSON value; the caller has already skipped leading whitespace. -/
def parseValue : Nat → List Char → Option (Json × List Char)
  | 0, _ => none
  | fuel + 1, l =>
    match l with
    | '\x7b' :: rest =>
      (match skipWs rest with
       | '\x7d' :: r2 => some (Json.obj [], r2)
       | r => parseMembers fuel [] r)
    | '[' :: rest =>
      (match skipWs rest with
       | ']' :: r2 => some (Json.arr [], r2)
       | r => parseElements fuel [] r)
    | '"' :: rest => (parseStringBody rest []).map (fun p => (Json.str p.1, p.2))
    | _ =>
      match litTok "true" (Json.bool true) l with
      | some out => some out
      | none =>
      match litTok "false" (Json.bool false) l with
      | some out => some out
      | none =>
      match litTok "null" Json.null l with
      | some out => some out
      | none =>
      match litTok "NaN" (Json.num "NaN") l with
      | some out => some out
      | none =>
      match litTok "Infinity" (Json.num "Infinity") l with
      | some out => some out
      | none =>
      match litTok "-Infinity" (Json.num "-Infinity") l with
      | some out => some out
      | none => parseNumber l

/-- Members of an object after the opening brace (first key expected next). -/
def parseMembers : Nat → List (String × Json) → List Char → Option (Json × List Char)
  | 0, _, _ => none
  | fuel + 1, acc, l =>
    match l with
    | '"' :: rest =>
      (match parseStringBody rest [] with
       | none => none
       | some (key, r1) =>
         match skipWs r1 with
         | ':' :: r2 =>
           (match parseValue fuel (skipWs r2) with
            | none => none
            | some (v, r3) =>
              match skipWs r3 with
              | ',' :: r4 => parseMembers fuel ((key, v) :: acc) (skipWs r4)
              | '\x7d' :: r4 => some (Json.obj ((key, v) :: acc).reverse, r4)
              | _ => none)
         | _ => none)
    | _ => none

/-- Elements of an array after the opening bracket (first element next). -/
def parseElements : Nat → List Json → List Char → Option (Json × List Char)
  | 0, _, _ => none
  | fuel + 1, acc, l =>
    match parseValue fuel l with
    | none => none
    | some (v, r1) =>
      match skipWs r1 with
      | ',' :: r2 => parseElements fuel (v :: acc) (skipWs r2)
      | ']' :: r2 => some (Json.arr (v :: acc).reverse, r2)
      | _ => none

end

/-- Model of `json.loads`: parse one value, require only whitespace after it
(otherwise CPython raises "Extra data").  `none` models a raised
`json.JSONDecodeError`. -/
def jsonLoads (s : String) : Option Json :=
  match parseValue (s.length + 1) (skipWs s.toList) with
  | some (v, rest) => if skipWs rest = [] then some v else none
  | none => none

/-- Last-occurrence key lookup, matching a Python dict built left to right
from the parsed field list. -/
def lookupLast (fs : List (String × Json)) (k : String) : Option Json :=
  match fs with
  | [] => none
  | (k2, v) :: rest =>
    match lookupLast rest k with
    | some v2 => some v2
    | none => if k2 = k then some v else none

def jsonGet (j : Json) (k : String) : Option Json :=
  match j with
  | Json.obj fs => lookupLast fs k
  | _ => none

/-- Python truthiness of a parsed JSON value (`if answer[key]:`). -/
def jsonTruthy (j : Json) : Bool :=
  match j with
  | Json.null => false
  | Json.bool b => b
  | Json.str s => s != ""
  | Json.num s =>
    (s.toList.takeWhile (fun c => !(c == 'e') && !(c == 'E'))).any
        (fun c => '1' ≤ c ∧ c ≤ '9')
      || s.toList.any (fun c => c == 'N' || c == 'I')
  | Json.arr es => !es.isEmpty
  | Json.obj fs => !fs.isEmpty

mutual

/-- Python `repr` of a parsed JSON value, as far as
`extract_decision_from_answer`'s `str(answer)` fallback needs it. -/
def pyRepr : Json → String
  | Json.null => "None"
  | Json.bool true => "True"
  | Json.bool false => "False"
  | Json.num s => s
  | Json.str s => "'" ++ s ++ "'"
  | Json.arr es => "[" ++ String.intercalate ", " (pyReprList es) ++ "]"
  | Json.obj fs => "\x7b" ++ String.intercalate ", " (pyReprFields fs) ++ "\x7d"

def pyReprList : List Json → List String
  | [] => []
  | j :: js => pyRepr j :: pyReprList js

def pyReprFields : List (String × Json) → List String
  | [] => []
  | (k, v) :: fs => ( "'" ++ k ++ "': " ++ pyRepr v) :: pyReprFields fs

end

/-- Python `str()` of a parsed JSON value.  (For numbers the lexeme is used;
no property below applies `str` to a number.) -/
def pyStr (j : Json) : String :=
  match j with
  | Json.str s => s
  | Json.null => "None"
  | Json.bool true => "True"
  | Json.bool false => "False"
  | Json.num s => s
  | other => pyRepr other

/-- ASCII fragment of the whitespace `str.strip()` removes. -/
def isPyStripWs (c : Char) : Bool := (String.toList " \t\n\r\x0b\x0c").contains c

/-- Model of `text.strip()`. -/
def pyStrip (l : List Char) : List Char :=
  ((l.dropWhile isPyStripWs).reverse.dropWhile isPyStripWs).reverse

/-- One pass of `re.sub(r"```json\n?|\n```", "", text)`: at each position the
engine prefers the first alternative (with its greedy optional newline),
otherwise tries the second, otherwise emits the character and advances.
Fuel is the input length, which always suffices (every step consumes at
least one character). -/
def stripFencesFuel : Nat → List Char → List Char
  | 0, l => l
  | _, [] => []
  | fuel + 1, c :: rest =>
    if (c :: rest).take 8 = String.toList "```json\n" then
      stripFencesFuel fuel ((c :: rest).drop 8)
    else if (c :: rest).take 7 = String.toList "```json" then
      stripFencesFuel fuel ((c :: rest).drop 7)
    else if (c :: rest).take 4 = String.toList "\n```" then
      stripFencesFuel fuel ((c :: rest).drop 4)
    else c :: stripFencesFuel fuel rest

def stripFences (l : List Char) : List Char := stripFencesFuel l.length l

/-- `re.search(r'\{.*\}', text, re.DOTALL)` matches iff the first brace `{`
precedes the last brace `}`; the (leftmost, greedy) match then runs from
that first `{` to that last `}`. -/
def findIdxCh (c : Char) : List Char → Option Nat
  | [] => none
  | x :: xs => if x = c then some 0 else (findIdxCh c xs).map (fun n => n + 1)

def lastIdxCh (c : Char) (l : List Char) : Option Nat :=
  (findIdxCh c l.reverse).map (fun j => l.length - 1 - j)

def extractSpan (l : List Char) : Option (List Char) :=
  match findIdxCh '\x7b' l, lastIdxCh '\x7d' l with
  | some i, some j => if i < j then some ((l.drop i).take (j - i + 1)) else none
  | _, _ => none

/-- Characters a backslash may legally precede, per the generator's FIX 1
regex `\\(?!["\\/bfnrtu])`. -/
def escOk (c : Char) : Bool :=
  c == '"' || c == '\\' || c == '/' || c == 'b' || c == 'f' || c == 'n' ||
  c == 'r' || c == 't' || c == 'u'

/-- FIX 1: remove every backslash not immediately followed by one of
`" \ / b f n r t u` (a trailing backslash is also removed; after a removal
scanning resumes at the following character, after a kept backslash at the
character it precedes — exactly `re.sub` left-to-right behaviour). -/
def fixBackslashes : List Char → List Char
  | [] => []
  | '\\' :: rest =>
    (match rest with
     | [] => []
     | c :: _ => if escOk c then '\\' :: fixBackslashes rest else fixBackslashes rest)
  | c :: rest => c :: fixBackslashes rest

/-- `json_str.replace('\n', ' ')`. -/
def replaceNewlines (l : List Char) : List Char :=
  l.map (fun c => if c == '\n' then ' ' else c)

/-- Python regex `\s` (ASCII): space, tab, newline, carriage return,
vertical tab, form feed. -/
def isRegexSpace (c : Char) : Bool := (String.toList " \t\n\r\x0b\x0c").contains c

/-- FIX 2: one pass of `re.sub(r',\s*([\}\]])', r'\1', json_str)`.  A comma
matches only when, after a run of whitespace, the next character is `}` or
`]`; the engine then resumes after the closer, otherwise after the comma.
Fuel is the input length, which always suffices. -/
def stripTrailingCommasFuel : Nat → List Char → List Char
  | 0, l => l
  | _, [] => []
  | fuel + 1, ',' :: rest =>
    (match rest.drop ((rest.takeWhile isRegexSpace).length) with
     | c :: r2 =>
       if c == '\x7d' || c == ']' then c :: stripTrailingCommasFuel fuel r2
       else ',' :: stripTrailingCommasFuel fuel rest
     | [] => ',' :: stripTrailingCommasFuel fuel rest)
  | fuel + 1, c :: rest => c :: stripTrailingCommasFuel fuel rest

def stripTrailingCommas (l : List Char) : List Char :=
  stripTrailingCommasFuel l.length l

/-- `GeneratorAgent._extract_json` (generator.py lines 25-56): strip + fence
removal, extract the `{...}` span, FIX 1, newline replacement, FIX 2, then
`json.loads`.  The error strings model the raised `ValueError` /
`json.JSONDecodeError`. -/
def gen_extract_json (text : String) : Except String Json :=
  match extractSpan (stripFences (pyStrip text.toList)) with
  | none => Except.error "No valid JSON object found in LLM response."
  | some json_str =>
    match jsonLoads (String.mk (stripTrailingCommas (replaceNewlines (fixBackslashes json_str)))) with
    | some v => Except.ok v
    | none => Except.error "JSONDecodeError"

/-- `QueryEnhancerAgent._extract_json` (query_enhancer.py lines 34-49): span
extraction and trailing-comma removal only, then `json.loads`. -/
def enh_extract_json (text : String) : Except String Json :=
  match extractSpan text.toList with
  | none => Except.error "No JSON object found in the response string."
  | some json_str =>
    match jsonLoads (String.mk (stripTrailingCommas json_str)) with
    | some v => Except.ok v
    | none => Except.error "JSONDecodeError"

/-- `EnhancedQuery` (query_enhancer.py lines 10-15), the pydantic model:
`intent`, `entities` and `raw_query` are required, `keywords` and
`conditions` optional with default `None`. -/
structure EnhancedQuery where
  intent : String
  entities : List String
  keywords : Option (List String)
  conditions : Option (List String)
  raw_query : String
deriving DecidableEq

/-- `List[str]` validation: every element must be a JSON string. -/
def strListOf : List Json → Option (List String)
  | [] => some []
  | Json.str s :: rest => (strListOf rest).map (fun l => s :: l)
  | _ :: _ => none

/-- `Optional[List[str]]` validation: absent or null gives `None`. -/
def optStrListOf : Option Json → Option (Option (List String))
  | none => some none
  | some Json.null => some none
  | some (Json.arr es) => (strListOf es).map some
  | some _ => none

/-- `EnhancedQuery(**response_data)`: pydantic validation of the parsed
record; extra keys are ignored; a missing or ill-typed required field makes
construction raise (modelled as `none`). -/
def validateEnhancedQuery (j : Json) : Option EnhancedQuery :=
  match jsonGet j "intent", jsonGet j "entities", jsonGet j "raw_query" with
  | some (Json.str intent), some (Json.arr es), some (Json.str rq) =>
    (match strListOf es, optStrListOf (jsonGet j "keywords"),
           optStrListOf (jsonGet j "conditions") with
     | some entities, some kws, some conds => some ⟨intent, entities, kws, conds, rq⟩
     | _, _, _ => none)
  | _, _, _ => none

/-- The deterministic fallback `EnhancedQuery` built in the `except` branch
of `enhance_query` (query_enhancer.py lines 96-102). -/
def fallbackEnhanced (query : String) : EnhancedQuery :=
  ⟨ "general_query", [query], none, none, query⟩

/-- `QueryEnhancerAgent.enhance_query` (query_enhancer.py lines 51-102).
`o` is the text-generation oracle for this call: `Except.error` models the
`generate_content` call raising, `Except.ok text` models `response.text`.
Every failure (call, span extraction, json.loads, pydantic validation) is
absorbed into the fallback. -/
def enhance_query (o : Except String String) (query : String) : EnhancedQuery :=
  match o with
  | Except.error _ => fallbackEnhanced query
  | Except.ok text =>
    match enh_extract_json text with
    | Except.error _ => fallbackEnhanced query
    | Except.ok j =>
      match validateEnhancedQuery j with
      | some eq => eq
      | none => fallbackEnhanced query

/-- Metadata mapping of one retrieved chunk; fields the pipeline reads,
each possibly absent. -/
structure Metadata where
  text_content : Option String
  document_name : Option String
  section_hierarchy : Option (List String)
deriving DecidableEq

/-- One scored passage as returned to the generator:
`{"score": float(res.get("score", 0.0)), "metadata": res["metadata"]}`. -/
structure Chunk where
  score : ℚ
  metadata : Metadata
deriving DecidableEq

/-- The fixed "Not Found" object returned by `generate_answer` when
`retrieved_chunks` is empty (generator.py lines 62-68). -/
def notFoundAnswer : Json :=
  Json.obj
    [( "decision", Json.str "Not Found"),
     ( "amount", Json.null),
     ( "justification", Json.str "Could not find relevant information in the provided documents."),
     ( "clauses", Json.arr [])]

/-- The absorbed-failure object returned by `generate_answer`'s `except`
branch (generator.py lines 168-173). -/
def errorAnswer (e : String) : Json :=
  Json.obj
    [( "decision", Json.str "Error"),
     ( "amount", Json.null),
     ( "justification", Json.str ( "Failed to generate a valid response: " ++ e)),
     ( "clauses", Json.arr [])]

/-- `GeneratorAgent.generate_answer` (generator.py lines 58-173).  `o` is
the text-generation oracle for this call (the prompt assembly feeding the
external call is pure string formatting and is not consulted by any
property).  Empty chunks short-circuit before the oracle is consulted; any
failure of the call or of `_extract_json` is absorbed into `errorAnswer`. -/
def generate_answer (o : Except String String) (raw_query : String)
    (retrieved_chunks : List Chunk) : Json :=
  match retrieved_chunks with
  | [] => notFoundAnswer
  | _ :: _ =>
    match o with
    | Except.error e => errorAnswer e
    | Except.ok text =>
      match gen_extract_json text with
      | Except.ok j => j
      | Except.error e => errorAnswer e

/-- The sparse vector `{'indices': ..., 'values': ...}`. -/
structure SparseVec where
  indices : List Nat
  values : List ℚ
deriving DecidableEq

/-- `hybrid_score_norm` (retriever.py lines 96-103): `ValueError` outside
`[0, 1]`, otherwise dense scaled by `alpha` and sparse values by
`1 - alpha`. -/
def hybrid_score_norm (dense : List ℚ) (sparse : SparseVec) (alpha : ℚ) :
    Except String (List ℚ × SparseVec) :=
  if alpha < 0 ∨ alpha > 1 then Except.error "Alpha must be between 0 and 1"
  else
    Except.ok
      (dense.map (fun v => v * alpha),
       ⟨sparse.indices, sparse.values.map (fun v => v * (1 - alpha))⟩)

/-- Result of `RetrieverAgent._embedder.encode([q], ...)` restricted to the
single query: `dense_vec` models `result['dense_vecs'][0]` and
`lexical_weights` models `result['lexical_weights'][0].items()` (keys
already as integers). -/
structure EmbedResult where
  dense_vec : List ℚ
  lexical_weights : List (Nat × ℚ)

/-- One match of the index response; `id`, `score` accessed with `.get`
(absent allowed), `metadata` accessed by direct subscript (absent raises). -/
structure IndexMatch where
  id : Option String
  score : Option ℚ
  metadata : Option Metadata
deriving DecidableEq

/-- The dedup loop of `retrieve_and_rerank` (retriever.py lines 154-160):
keep a match only when its id was not seen before. -/
def dedupByIdAux (seen : List (Option String)) : List IndexMatch → List IndexMatch
  | [] => []
  | r :: rs =>
    if r.id ∈ seen then dedupByIdAux seen rs
    else r :: dedupByIdAux (r.id :: seen) rs

def dedupById (l : List IndexMatch) : List IndexMatch := dedupByIdAux [] l

/-- Conversion of one surviving match to its output chunk. -/
def chunkOfMatch (m : IndexMatch) : Chunk :=
  ⟨m.score.getD 0, match m.metadata with | some md => md | none => ⟨none, none, none⟩⟩

/-- The final-results loop (retriever.py lines 162-167): `res["metadata"]`
raises `KeyError` when absent (that exception is NOT inside the index-query
`try`), otherwise each match is kept with its Pinecone score. -/
def toFinalResults : List IndexMatch → Except String (List Chunk)
  | [] => Except.ok []
  | r :: rs =>
    match r.metadata with
    | none => Except.error "KeyError: 'metadata'"
    | some md =>
      match toFinalResults rs with
      | Except.ok cs => Except.ok (⟨r.score.getD 0, md⟩ :: cs)
      | Except.error e => Except.error e

/-- `RetrieverAgent._compose_search_query` (retriever.py lines 123-129):
raw query, entities, then keywords and conditions when truthy, joined by
single spaces with empty strings dropped (`filter(None, parts)`). -/
def compose_search_query (enhanced_query : EnhancedQuery) : String :=
  String.intercalate " "
    (((enhanced_query.raw_query :: enhanced_query.entities)
      ++ (match enhanced_query.keywords with
          | some ks => if ks.isEmpty then [] else ks
          | none => [])
      ++ (match enhanced_query.conditions with
          | some cs => if cs.isEmpty then [] else cs
          | none => [])).filter (fun s => s != ""))

/-- `RetrieverAgent.retrieve_and_rerank` (retriever.py lines 131-169).
`embed` is the embedding oracle (its failure is NOT caught by the code and
propagates); `indexQuery` is the vector-index oracle, consulted with the
hybrid-weighted vectors and `top_k_final` — only ITS failure is caught and
absorbed into `[]`.  `top_k_initial` is accepted but unused, as in the
active code path. -/
def retrieve_and_rerank (embed : String → Except String EmbedResult)
    (indexQuery : List ℚ → SparseVec → Nat → Except String (List IndexMatch))
    (enhanced_query : EnhancedQuery) (top_k_initial top_k_final : Nat)
    (alpha : ℚ) : Except String (List Chunk) :=
  match embed (compose_search_query enhanced_query) with
  | Except.error e => Except.error e
  | Except.ok result =>
    match hybrid_score_norm result.dense_vec
        ⟨(result.lexical_weights.filter (fun p => p.2 != 0)).map Prod.fst,
         (result.lexical_weights.filter (fun p => p.2 != 0)).map Prod.snd⟩ alpha with
    | Except.error e => Except.error e
    | Except.ok (hdense, hsparse) =>
      match indexQuery hdense hsparse top_k_final with
      | Except.error _ => Except.ok []
      | Except.ok results =>
        if results.isEmpty then Except.ok []
        else toFinalResults (dedupById results)

/-- `extract_decision_from_answer` (run.py lines 16-25): first truthy value
among the candidate keys, else `str` of the whole answer. -/
def findFirstTruthy (j : Json) : List String → Option Json
  | [] => none
  | k :: ks =>
    match jsonGet j k with
    | some v => if jsonTruthy v then some v else findFirstTruthy j ks
    | none => findFirstTruthy j ks

def extract_decision_from_answer (answer : Json) : String :=
  match answer with
  | Json.obj _ =>
    (match findFirstTruthy answer [ "decision", "answer", "response", "content", "text"] with
     | some v => pyStr v
     | none => pyRepr answer)
  | other => pyStr other

/-- Per-question pipeline outcome dict (run.py lines 44-57 and 82-87). -/
structure QuestionResult where
  question : String
  status : String
  error : Option String
  enhanced : Option EnhancedQuery
  chunks : Option (List Chunk)
  answer : Option Json
  generated_answer : Option String

def dummyResult : QuestionResult := ⟨ "", "", none, none, none, none, none⟩

/-- The external-call oracles one worker unit consults: the enhancer's
text-generation call, the embedding call, the index query, the generator's
text-generation call. -/
structure UnitOracles where
  enh : Except String String
  embed : String → Except String EmbedResult
  index : List ℚ → SparseVec → Nat → Except String (List IndexMatch)
  gen : Except String String

/-- `process_single_question` (run.py lines 27-57): run the
Enhancer → Retriever → Generator chain; any exception raised inside the
`try` (in the code, only the retriever can raise) is converted to an
error-status result. -/
def process_single_question (u : UnitOracles) (user_query : String) : QuestionResult :=
  match retrieve_and_rerank u.embed u.index (enhance_query u.enh user_query) 35 5 (mkRat 1 2) with
  | Except.error e => ⟨user_query, "error", some e, none, none, none, none⟩
  | Except.ok chunks =>
    ⟨user_query, "success", none, some (enhance_query u.enh user_query), some chunks,
     some (generate_answer u.gen user_query chunks),
     some (extract_decision_from_answer (generate_answer u.gen user_query chunks))⟩

/-- Outcome of one submitted future as seen by the collection loop:
either the unit function returned (it catches its own exceptions), or
`future.result()` itself raised — the only way to reach the
`"Processing failed: ..."` branch (run.py lines 80-87). -/
inductive FutureOutcome where
  | completed (u : UnitOracles)
  | raised (msg : String)

def runFuture (fo : FutureOutcome) (question : String) : QuestionResult :=
  match fo with
  | FutureOutcome.completed u => process_single_question u question
  | FutureOutcome.raised msg =>
    ⟨question, "error", some ( "Processing failed: " ++ msg), none, none, none, none⟩

/-- `{q: i for i, q in enumerate(questions)}` maps a question to its LAST
index (later duplicates overwrite earlier ones); `.get(q, len(questions))`
defaults to the length. -/
def lastIdxOf (l : List String) (q : String) : Option Nat :=
  match l with
  | [] => none
  | x :: xs =>
    match lastIdxOf xs q with
    | some j => some (j + 1)
    | none => if x = q then some 0 else none

def questionToIndex (l : List String) (q : String) : Nat :=
  match lastIdxOf l q with
  | some i => i
  | none => l.length

/-- The `as_completed` collection loop: one result per future, in completion
order (`order` lists the future indices in the order they complete). -/
def collectInOrder (questions : List String) (units : Nat → FutureOutcome)
    (order : List Nat) : List QuestionResult :=
  order.map (fun i => runFuture (units i) (questions.getD i ""))

/-- `results.sort(key=lambda x: question_to_index.get(x.get("question", ""), len(questions)))`
— a stable sort by the last-index key (Python's sort is stable; so is
insertion sort). -/
def sortResults (questions : List String) (results : List QuestionResult) :
    List QuestionResult :=
  List.insertionSort
    (fun a b => questionToIndex questions a.question ≤ questionToIndex questions b.question)
    results

/-- `process_questions_parallel` (run.py lines 59-93) for a batch whose
futures all complete, with `order` the completion order of the future
indices.  Empty input returns immediately. -/
def process_questions_parallel (questions : List String)
    (units : Nat → FutureOutcome) (order : List Nat) : List QuestionResult :=
  if questions.isEmpty then []
  else sortResults questions (collectInOrder questions units order)

/-- Completion order induced by completion times (ties broken by index,
`as_completed` leaves them unspecified). -/
def orderOfTimes (times : Nat → Option Nat) (n : Nat) : List Nat :=
  List.insertionSort (fun i j => (times i).getD 0 ≤ (times j).getD 0) (List.range n)

/-- Timed model of `process_questions_parallel`: `times i = some t` means
future `i` completes at time `t`, `none` that it never completes.
`as_completed(fs)` is called WITHOUT a timeout, so it yields futures in
completion order and, if any future never completes, blocks forever — the
call then never returns, modelled as `none`.  `future.result(timeout=30)`
is applied only to futures `as_completed` has already yielded, i.e. to
completed futures, so it returns immediately no matter how late the future
finished; the 30-time-unit argument can never fire. -/
def process_questions_parallel_timed (questions : List String)
    (units : Nat → FutureOutcome) (times : Nat → Option Nat) :
    Option (List QuestionResult) :=
  if (List.range questions.length).all (fun i => (times i).isSome) then
    some (process_questions_parallel questions units
      (orderOfTimes times questions.length))
  else none

/-- "The generator's text-generation call failed, or its output failed the
recovery parse" — the generator's absorbed-failure condition. -/
def genFails (o : Except String String) : Prop :=
  match o with
  | Except.error _ => True
  | Except.ok t => ∃ e, gen_extract_json t = Except.error e

/- Concrete fixtures used by the witness and counterexample theorems below. -/

def eqW : EnhancedQuery :=
  ⟨ "coverage_check", [ "knee surgery"], none, none, "What is covered?"⟩

def embedW : String → Except String EmbedResult := fun _ => Except.ok ⟨[], []⟩

def embedFailW : String → Except String EmbedResult :=
  fun _ => Except.error "embedding failure"

def indexEmptyW : List ℚ → SparseVec → Nat → Except String (List IndexMatch) :=
  fun _ _ _ => Except.ok []

def indexFailW : List ℚ → SparseVec → Nat → Except String (List IndexMatch) :=
  fun _ _ _ => Except.error "index unavailable"

def mdW : Metadata := ⟨some "text", some "doc", some [ "sec"]⟩

def matchW (i : String) : IndexMatch := ⟨some i, some 1, some mdW⟩

def resultsSixW : List IndexMatch :=
  [matchW "a", matchW "b", matchW "c", matchW "d", matchW "e", matchW "f"]

def indexSixW : List ℚ → SparseVec → Nat → Except String (List IndexMatch) :=
  fun _ _ _ => Except.ok resultsSixW

def resultsDupW : List IndexMatch :=
  [⟨some "a", some 3, some mdW⟩, ⟨some "b", some 2, some mdW⟩, ⟨some "a", some 1, some mdW⟩]

def indexDupW : List ℚ → SparseVec → Nat → Except String (List IndexMatch) :=
  fun _ _ _ => Except.ok resultsDupW

def unitOkW : UnitOracles :=
  ⟨Except.error "enh down", embedW, indexEmptyW, Except.error "gen down"⟩

def unitEmbDownW : UnitOracles :=
  ⟨Except.error "enh down", embedFailW, indexEmptyW, Except.error "gen down"⟩

def unitGenDownW : UnitOracles :=
  ⟨Except.error "enh down", embedW, indexDupW, Except.error "gen down"⟩

def malformedOutputW : String :=
  "```json\n\x7b\"decision\": \"A \\x B\",\n \"amount\": null,\n \"clauses\": [ \"a\", \"b\",]\n\x7d\n```"

def spanW : List Char :=
  String.toList "\x7b\"decision\": \"A \\x B\",\n \"amount\": null,\n \"clauses\": [ \"a\", \"b\",]\n\x7d"

def parsedW : Json :=
  Json.obj
    [( "decision", Json.str "A x B"),
     ( "amount", Json.null),
     ( "clauses", Json.arr [Json.str "a", Json.str "b"])]

/- ------------------------------------------------------------------ -/
/- Theorems.                                                          -/
/- ------------------------------------------------------------------ -/

theorem mem_of_mem_pyStrip {c : Char} {l : List Char} (h : c ∈ pyStrip l) : c ∈ l := by
  unfold pyStrip at h
  rw [List.mem_reverse] at h
  replace h := (List.dropWhile_sublist _).subset h
  rw [List.mem_reverse] at h
  exact (List.dropWhile_sublist _).subset h

theorem mem_of_mem_stripFencesFuel {c : Char} :
    ∀ (fuel : Nat) (l : List Char), c ∈ stripFencesFuel fuel l → c ∈ l
  | 0, l, h => by
    unfold stripFencesFuel at h
    cases l with
    | nil => exact h
    | cons y ys => exact h
  | _ + 1, [], h => by
    unfold stripFencesFuel at h
    exact h
  | fuel + 1, x :: rest, h => by
    unfold stripFencesFuel at h
    split at h
    · exact List.mem_of_mem_drop (mem_of_mem_stripFencesFuel fuel _ h)
    · split at h
      · exact List.mem_of_mem_drop (mem_of_mem_stripFencesFuel fuel _ h)
      · split at h
        · exact List.mem_of_mem_drop (mem_of_mem_stripFencesFuel fuel _ h)
        · rcases List.mem_cons.mp h with h1 | h1
          · exact h1 ▸ List.mem_cons_self _ _
          · exact List.mem_cons_of_mem _ (mem_of_mem_stripFencesFuel fuel _ h1)

theorem mem_of_mem_stripFences {c : Char} {l : List Char}
    (h : c ∈ stripFences l) : c ∈ l :=
  mem_of_mem_stripFencesFuel _ _ h

theorem findIdxCh_eq_none {c : Char} {l : List Char} (h : c ∉ l) :
    findIdxCh c l = none := by
  induction l with
  | nil => rfl
  | cons x xs ih =>
    simp only [List.mem_cons, not_or] at h
    unfold findIdxCh
    rw [if_neg (fun hx => h.1 hx.symm), ih h.2]
    rfl

/-- C3: for every input string that contains no opening brace or no closing
brace, `GeneratorAgent._extract_json` raises
"No valid JSON object found in LLM response." and returns no parsed record
(the preceding strip/fence-removal steps only delete characters, so they
cannot introduce a brace). -/
theorem gen_extract_json_no_braces (s : String)
    (h : '\x7b' ∉ s.toList ∨ '\x7d' ∉ s.toList) :
    gen_extract_json s = Except.error "No valid JSON object found in LLM response." := by
  have hspan : extractSpan (stripFences (pyStrip s.toList)) = none := by
    rcases h with h | h
    · have hnm : '\x7b' ∉ stripFences (pyStrip s.toList) :=
        fun hm => h (mem_of_mem_pyStrip (mem_of_mem_stripFences hm))
      unfold extractSpan
      rw [findIdxCh_eq_none hnm]
    · have hnm : '\x7d' ∉ (stripFences (pyStrip s.toList)).reverse := by
        rw [List.mem_reverse]
        exact fun hm => h (mem_of_mem_pyStrip (mem_of_mem_stripFences hm))
      unfold extractSpan lastIdxCh
      rw [findIdxCh_eq_none hnm]
      cases findIdxCh '\x7b' (stripFences (pyStrip s.toList)) <;> rfl
  unfold gen_extract_json
  rw [hspan]

theorem gen_extract_json_no_braces_witness :
    ( '\x7b' ∉ ( "the model returned prose with no json at all").toList
      ∨ '\x7d' ∉ ( "the model returned prose with no json at all").toList)
    ∧ gen_extract_json "the model returned prose with no json at all"
        = Except.error "No valid JSON object found in LLM response." :=
  ⟨Or.inl (by decide), gen_extract_json_no_braces _ (Or.inl (by decide))⟩

/-- C4: whenever the fence-stripped input contains a `{...}` span and that
span, after the repairs in the code's order (invalid-backslash removal,
newline replacement, trailing-comma removal), parses as JSON, the recovery
parser `GeneratorAgent._extract_json` returns that parsed record. -/
theorem gen_extract_json_recovers (s : String) (span : List Char) (v : Json)
    (h1 : extractSpan (stripFences (pyStrip s.toList)) = some span)
    (h2 : jsonLoads (String.mk (stripTrailingCommas (replaceNewlines (fixBackslashes span))))
            = some v) :
    gen_extract_json s = Except.ok v := by
  simp only [gen_extract_json, h1, h2]

theorem gen_extract_json_recovers_witness :
    extractSpan (stripFences (pyStrip malformedOutputW.toList)) = some spanW
    ∧ jsonLoads (String.mk (stripTrailingCommas (replaceNewlines (fixBackslashes spanW))))
        = some parsedW
    ∧ gen_extract_json malformedOutputW = Except.ok parsedW :=
  ⟨rfl, rfl, gen_extract_json_recovers _ _ _ rfl rfl⟩

/-- C8: with an empty chunk sequence, `generate_answer` returns exactly the
fixed "Not Found" object, for every oracle — i.e. without consulting the
text-generation capability. -/
theorem generate_answer_empty_chunks (o : Except String String) (raw_query : String) :
    generate_answer o raw_query []
      = Json.obj
          [( "decision", Json.str "Not Found"),
           ( "amount", Json.null),
           ( "justification",
             Json.str "Could not find relevant information in the provided documents."),
           ( "clauses", Json.arr [])] := rfl

/-- C9 counterexample: on the success path `raw_query` is copied from the
model's JSON, so a model output whose `raw_query` field differs from the
input question yields an `EnhancedQuery` with `raw_query ≠` input. -/
theorem enhance_query_raw_query_cex :
    (enhance_query
        (Except.ok "\x7b\"intent\": \"coverage_check\", \"entities\": [\"knee surgery\"], \"raw_query\": \"a different question\"\x7d")
        "What is covered?").raw_query
      = "a different question"
    ∧ ( "a different question" : String) ≠ "What is covered?" :=
  ⟨rfl, by decide⟩

/-- C9 amended: `enhance_query` either returns the fallback record — whose
`raw_query` is the input question — or returns exactly the validated
model-parsed record, whose `raw_query` comes from the model output and is
not forced to equal the input. -/
theorem enhance_query_raw_query_paths (o : Except String String) (q : String) :
    (enhance_query o q = fallbackEnhanced q ∧ (fallbackEnhanced q).raw_query = q)
    ∨ (∃ t j eqv, o = Except.ok t ∧ enh_extract_json t = Except.ok j
        ∧ validateEnhancedQuery j = some eqv ∧ enhance_query o q = eqv) := by
  cases o with
  | error e => exact Or.inl ⟨rfl, rfl⟩
  | ok t =>
    cases hj : enh_extract_json t with
    | error e => exact Or.inl ⟨by simp [enhance_query, hj], rfl⟩
    | ok j =>
      cases hv : validateEnhancedQuery j with
      | none => exact Or.inl ⟨by simp [enhance_query, hj, hv], rfl⟩
      | some eqv =>
        exact Or.inr ⟨t, j, eqv, rfl, hj, hv, by simp [enhance_query, hj, hv]⟩

/-- C5: for `alpha` outside `[0, 1]`, `hybrid_score_norm` raises the
`ValueError` and `retrieve_and_rerank` propagates it without consulting the
index oracle (the conclusion holds for EVERY `indexQuery`, so no query is
issued). -/
theorem hybrid_alpha_out_of_range (dense : List ℚ) (sparse : SparseVec)
    (embed : String → Except String EmbedResult)
    (indexQuery : List ℚ → SparseVec → Nat → Except String (List IndexMatch))
    (enhanced_query : EnhancedQuery) (top_k_initial top_k_final : Nat)
    (alpha : ℚ) (emb : EmbedResult)
    (hα : alpha < 0 ∨ alpha > 1)
    (hemb : embed (compose_search_query enhanced_query) = Except.ok emb) :
    hybrid_score_norm dense sparse alpha = Except.error "Alpha must be between 0 and 1"
    ∧ retrieve_and_rerank embed indexQuery enhanced_query top_k_initial top_k_final alpha
        = Except.error "Alpha must be between 0 and 1" := by
  have hgen : ∀ (d : List ℚ) (sp : SparseVec),
      hybrid_score_norm d sp alpha = Except.error "Alpha must be between 0 and 1" := by
    intro d sp
    unfold hybrid_score_norm
    rw [if_pos hα]
  refine ⟨hgen dense sparse, ?_⟩
  simp only [retrieve_and_rerank, hemb, hgen]

theorem hybrid_alpha_out_of_range_witness :
    ((2 : ℚ) < 0 ∨ (2 : ℚ) > 1)
    ∧ hybrid_score_norm [1] ⟨[2], [3]⟩ 2 = Except.error "Alpha must be between 0 and 1"
    ∧ retrieve_and_rerank embedW indexEmptyW eqW 35 5 2
        = Except.error "Alpha must be between 0 and 1" := by
  have h := hybrid_alpha_out_of_range [1] ⟨[2], [3]⟩ embedW indexEmptyW eqW 35 5 2
    ⟨[], []⟩ (Or.inr (by norm_num)) rfl
  exact ⟨Or.inr (by norm_num), h.1, h.2⟩

/-- C6 counterexample: a failing embedding step is NOT absorbed —
`retrieve_and_rerank` propagates the exception instead of returning the
empty sequence (alpha is the in-range default 0.5). -/
theorem retrieve_and_rerank_embed_fail_cex :
    retrieve_and_rerank embedFailW indexEmptyW eqW 35 5 (mkRat 1 2)
      = Except.error "embedding failure"
    ∧ Except.error "embedding failure" ≠ (Except.ok [] : Except String (List Chunk)) :=
  ⟨rfl, fun h => Except.noConfusion h⟩

/-- C6 amended: for alpha in `[0, 1]`, a failing INDEX query is absorbed
into the empty sequence; a failing EMBEDDING step, by contrast, propagates
out of `retrieve_and_rerank` as an exception. -/
theorem retrieve_and_rerank_fail_modes
    (embed : String → Except String EmbedResult)
    (indexQuery : List ℚ → SparseVec → Nat → Except String (List IndexMatch))
    (enhanced_query : EnhancedQuery) (top_k_initial top_k_final : Nat)
    (alpha : ℚ) (msg emsg : String) :
    ((0 ≤ alpha → alpha ≤ 1 →
       (∀ d sp k, indexQuery d sp k = Except.error msg) →
       ∀ emb, embed (compose_search_query enhanced_query) = Except.ok emb →
       retrieve_and_rerank embed indexQuery enhanced_query top_k_initial top_k_final alpha
         = Except.ok []))
    ∧ (embed (compose_search_query enhanced_query) = Except.error emsg →
       retrieve_and_rerank embed indexQuery enhanced_query top_k_initial top_k_final alpha
         = Except.error emsg) := by
  constructor
  · intro h0 h1 hiq emb hemb
    have hns : ¬(alpha < 0 ∨ alpha > 1) := by
      push_neg
      exact ⟨h0, h1⟩
    simp only [retrieve_and_rerank, hemb, hybrid_score_norm, if_neg hns, hiq]
  · intro hemb
    simp only [retrieve_and_rerank, hemb]

theorem retrieve_and_rerank_fail_modes_witness :
    retrieve_and_rerank embedW indexFailW eqW 35 5 (mkRat 1 2) = Except.ok []
    ∧ retrieve_and_rerank embedFailW indexEmptyW eqW 35 5 (mkRat 1 2)
        = Except.error "embedding failure" :=
  ⟨(retrieve_and_rerank_fail_modes embedW indexFailW eqW 35 5 (mkRat 1 2)
      "index unavailable" "unused").1 (by decide) (by decide)
      (fun d sp k => rfl) ⟨[], []⟩ rfl,
   (retrieve_and_rerank_fail_modes embedFailW indexEmptyW eqW 35 5 (mkRat 1 2)
      "unused" "embedding failure").2 rfl⟩

theorem dedupByIdAux_subset :
    ∀ (seen : List (Option String)) (l : List IndexMatch) (m : IndexMatch),
      m ∈ dedupByIdAux seen l → m ∈ l
  | _, [], m, h => absurd h (List.not_mem_nil m)
  | seen, r :: rs, m, h => by
    by_cases hid : r.id ∈ seen
    · simp only [dedupByIdAux, if_pos hid] at h
      exact List.mem_cons_of_mem _ (dedupByIdAux_subset seen rs m h)
    · simp only [dedupByIdAux, if_neg hid, List.mem_cons] at h
      rcases h with rfl | h1
      · exact List.mem_cons_self _ _
      · exact List.mem_cons_of_mem _ (dedupByIdAux_subset _ rs m h1)

theorem dedupByIdAux_not_seen :
    ∀ (seen : List (Option String)) (l : List IndexMatch) (m : IndexMatch),
      m ∈ dedupByIdAux seen l → m.id ∉ seen
  | _, [], m, h => absurd h (List.not_mem_nil m)
  | seen, r :: rs, m, h => by
    by_cases hid : r.id ∈ seen
    · simp only [dedupByIdAux, if_pos hid] at h
      exact dedupByIdAux_not_seen seen rs m h
    · simp only [dedupByIdAux, if_neg hid, List.mem_cons] at h
      rcases h with rfl | h1
      · exact hid
      · intro hm
        exact dedupByIdAux_not_seen (r.id :: seen) rs m h1 (List.mem_cons_of_mem _ hm)

theorem dedupByIdAux_nodup :
    ∀ (seen : List (Option String)) (l : List IndexMatch),
      ((dedupByIdAux seen l).map (fun m => m.id)).Nodup
  | _, [] => List.nodup_nil
  | seen, r :: rs => by
    by_cases hid : r.id ∈ seen
    · simp only [dedupByIdAux, if_pos hid]
      exact dedupByIdAux_nodup seen rs
    · simp only [dedupByIdAux, if_neg hid, List.map_cons]
      rw [List.nodup_cons]
      constructor
      · intro hmem
        rcases List.mem_map.mp hmem with ⟨m, hm, hmid⟩
        exact dedupByIdAux_not_seen (r.id :: seen) rs m hm
          (by rw [hmid]; exact List.mem_cons_self _ _)
      · exact dedupByIdAux_nodup (r.id :: seen) rs

theorem dedupByIdAux_find :
    ∀ (seen : List (Option String)) (l : List IndexMatch) (m : IndexMatch),
      m ∈ dedupByIdAux seen l → l.find? (fun r => r.id == m.id) = some m
  | _, [], m, h => absurd h (List.not_mem_nil m)
  | seen, r :: rs, m, h => by
    by_cases hid : r.id ∈ seen
    · simp only [dedupByIdAux, if_pos hid] at h
      have hne : (r.id == m.id) = false := by
        rw [beq_eq_false_iff_ne]
        intro he
        exact dedupByIdAux_not_seen seen rs m h (he ▸ hid)
      rw [List.find?_cons_of_neg _ (by simp [hne]), dedupByIdAux_find seen rs m h]
    · simp only [dedupByIdAux, if_neg hid, List.mem_cons] at h
      rcases h with rfl | h1
      · rw [List.find?_cons_of_pos _ (by simp)]
      · have hne : (r.id == m.id) = false := by
          rw [beq_eq_false_iff_ne]
          intro he
          exact dedupByIdAux_not_seen (r.id :: seen) rs m h1
            (by rw [← he]; exact List.mem_cons_self _ _)
        rw [List.find?_cons_of_neg _ (by simp [hne]),
          dedupByIdAux_find (r.id :: seen) rs m h1]

theorem dedupByIdAux_length :
    ∀ (seen : List (Option String)) (l : List IndexMatch),
      (dedupByIdAux seen l).length ≤ l.length
  | _, [] => Nat.le_refl 0
  | seen, r :: rs => by
    by_cases hid : r.id ∈ seen
    · simp only [dedupByIdAux, if_pos hid, List.length_cons]
      exact Nat.le_succ_of_le (dedupByIdAux_length seen rs)
    · simp only [dedupByIdAux, if_neg hid, List.length_cons]
      exact Nat.succ_le_succ (dedupByIdAux_length _ rs)

theorem toFinalResults_eq_map {l : List IndexMatch}
    (h : ∀ m ∈ l, m.metadata.isSome = true) :
    toFinalResults l = Except.ok (l.map chunkOfMatch) := by
  induction l with
  | nil => rfl
  | cons r rs ih =>
    have hr := h r (List.mem_cons_self r rs)
    cases hmd : r.metadata with
    | none => rw [hmd] at hr; simp at hr
    | some md =>
      simp only [toFinalResults, hmd, ih (fun m hm => h m (List.mem_cons_of_mem _ hm)),
        List.map_cons]
      simp [chunkOfMatch, hmd]

/-- C7 counterexample: the code never truncates — for an index response
carrying six distinct-id matches (more than `top_k_final = 5`, violating
the index contract), `retrieve_and_rerank` returns all six. -/
theorem retrieve_and_rerank_no_truncation_cex :
    retrieve_and_rerank embedW indexSixW eqW 35 5 (mkRat 1 2)
      = Except.ok ((dedupById resultsSixW).map chunkOfMatch)
    ∧ ((dedupById resultsSixW).map chunkOfMatch).length = 6
    ∧ ¬(6 ≤ 5) :=
  ⟨rfl, rfl, by decide⟩

/-- C7 amended: for an index response observing the index contract (at most
`top_k_final` matches for a query issued with `top_k = top_k_final`, each
match carrying metadata), `retrieve_and_rerank` returns the matches
deduplicated by id — keeping, in index order, exactly the first occurrence
of each id — and the result has length at most `top_k_final`; the length
bound comes from the contract, not from any truncation in the code. -/
theorem retrieve_and_rerank_dedup
    (embed : String → Except String EmbedResult)
    (indexQuery : List ℚ → SparseVec → Nat → Except String (List IndexMatch))
    (enhanced_query : EnhancedQuery) (top_k_initial top_k_final : Nat)
    (alpha : ℚ) (emb : EmbedResult) (results : List IndexMatch)
    (h0 : 0 ≤ alpha) (h1 : alpha ≤ 1)
    (hemb : embed (compose_search_query enhanced_query) = Except.ok emb)
    (hiq : ∀ d sp k, indexQuery d sp k = Except.ok results)
    (hlen : results.length ≤ top_k_final)
    (hmd : ∀ m ∈ results, m.metadata.isSome = true) :
    retrieve_and_rerank embed indexQuery enhanced_query top_k_initial top_k_final alpha
      = Except.ok ((dedupById results).map chunkOfMatch)
    ∧ ((dedupById results).map (fun m => m.id)).Nodup
    ∧ (∀ m ∈ dedupById results, results.find? (fun r => r.id == m.id) = some m)
    ∧ ((dedupById results).map chunkOfMatch).length ≤ top_k_final := by
  have hns : ¬(alpha < 0 ∨ alpha > 1) := by
    push_neg
    exact ⟨h0, h1⟩
  have hfin : toFinalResults (dedupById results)
      = Except.ok ((dedupById results).map chunkOfMatch) :=
    toFinalResults_eq_map (fun m hm => hmd m (dedupByIdAux_subset [] results m hm))
  refine ⟨?_, dedupByIdAux_nodup [] results,
    fun m hm => dedupByIdAux_find [] results m hm, ?_⟩
  · simp only [retrieve_and_rerank, hemb, hybrid_score_norm, if_neg hns, hiq]
    by_cases hres : results.isEmpty
    · rw [if_pos hres]
      rw [List.isEmpty_iff] at hres
      subst hres
      rfl
    · rw [if_neg hres, hfin]
  · rw [List.length_map]
    exact Nat.le_trans (dedupByIdAux_length [] results) hlen

theorem retrieve_and_rerank_dedup_witness :
    retrieve_and_rerank embedW indexDupW eqW 35 5 (mkRat 1 2)
      = Except.ok ((dedupById resultsDupW).map chunkOfMatch)
    ∧ ((dedupById resultsDupW).map (fun m => m.id)).Nodup
    ∧ (∀ m ∈ dedupById resultsDupW,
        resultsDupW.find? (fun r => r.id == m.id) = some m)
    ∧ ((dedupById resultsDupW).map chunkOfMatch).length ≤ 5 :=
  retrieve_and_rerank_dedup embedW indexDupW eqW 35 5 (mkRat 1 2) ⟨[], []⟩
    resultsDupW (by decide) (by decide) rfl (fun d sp k => rfl)
    (by decide) (by decide)

/-- C10 counterexample: a failure inside the Retriever (its embedding step)
DOES produce an error-status `QuestionResult`: the exception is caught by
`process_single_question`'s own handler, which sets status "error". -/
theorem process_single_question_retriever_error_cex :
    (process_single_question unitEmbDownW "q").status = "error"
    ∧ ( "error" : String) ≠ "success" :=
  ⟨rfl, by decide⟩

/-- C10 amended: whenever the retriever call returns normally (in particular
whenever the absorbed-failure paths engage: the enhancer always falls back
rather than raise, an index-query failure is absorbed into `[]`, a
generator failure into the "Error" answer object), the unit returns status
"success"; a generator failure with a non-empty chunk list yields
`generated_answer = "Error"` (the decision field of the absorbed error
object).  An exception escaping the retriever (embedding failure, missing
match metadata) is instead caught by the unit's own handler and yields an
error-status result carrying the cause. -/
theorem process_single_question_status (u : UnitOracles) (q : String) :
    (∀ chunks,
       retrieve_and_rerank u.embed u.index (enhance_query u.enh q) 35 5 (mkRat 1 2)
         = Except.ok chunks →
       (process_single_question u q).status = "success"
       ∧ (chunks ≠ [] → genFails u.gen →
           (process_single_question u q).generated_answer = some "Error"))
    ∧ (∀ e,
       retrieve_and_rerank u.embed u.index (enhance_query u.enh q) 35 5 (mkRat 1 2)
         = Except.error e →
       (process_single_question u q).status = "error"
       ∧ (process_single_question u q).error = some e) := by
  constructor
  · intro chunks hret
    have hpsq : process_single_question u q
        = ⟨q, "success", none, some (enhance_query u.enh q), some chunks,
           some (generate_answer u.gen q chunks),
           some (extract_decision_from_answer (generate_answer u.gen q chunks))⟩ := by
      unfold process_single_question
      rw [hret]
    refine ⟨by rw [hpsq], ?_⟩
    intro hne hgf
    rw [hpsq]
    cases chunks with
    | nil => exact absurd rfl hne
    | cons c cs =>
      cases hg : u.gen with
      | error e => rfl
      | ok t =>
        have h3 : ∃ e2, gen_extract_json t = Except.error e2 := by
          rw [hg] at hgf
          exact hgf
        obtain ⟨e2, hge⟩ := h3
        simp only [generate_answer, hge]
        rfl
  · intro e hret
    have hpsq : process_single_question u q = ⟨q, "error", some e, none, none, none, none⟩ := by
      unfold process_single_question
      rw [hret]
    rw [hpsq]
    exact ⟨rfl, rfl⟩

theorem process_single_question_status_witness :
    (process_single_question unitGenDownW "q").status = "success"
    ∧ (process_single_question unitGenDownW "q").generated_answer = some "Error"
    ∧ (process_single_question unitEmbDownW "q").status = "error"
    ∧ (process_single_question unitEmbDownW "q").error = some "embedding failure" :=
  ⟨((process_single_question_status unitGenDownW "q").1
      ((dedupById resultsDupW).map chunkOfMatch) rfl).1,
   ((process_single_question_status unitGenDownW "q").1
      ((dedupById resultsDupW).map chunkOfMatch) rfl).2
      (by decide) trivial,
   ((process_single_question_status unitEmbDownW "q").2 "embedding failure" rfl).1,
   ((process_single_question_status unitEmbDownW "q").2 "embedding failure" rfl).2⟩

theorem process_single_question_question (u : UnitOracles) (q : String) :
    (process_single_question u q).question = q := by
  unfold process_single_question
  split <;> rfl

theorem runFuture_question (fo : FutureOutcome) (q : String) :
    (runFuture fo q).question = q := by
  cases fo with
  | completed u => exact process_single_question_question u q
  | raised msg => rfl

theorem lastIdxOf_eq_none {l : List String} {q : String} (h : q ∉ l) :
    lastIdxOf l q = none := by
  induction l with
  | nil => rfl
  | cons x xs ih =>
    simp only [List.mem_cons, not_or] at h
    unfold lastIdxOf
    rw [ih h.2]
    exact if_neg (fun hx => h.1 hx.symm)

theorem lastIdxOf_getD :
    ∀ (l : List String) (i : Nat), l.Nodup → i < l.length →
      lastIdxOf l (l.getD i "") = some i
  | [], _, _, hi => absurd hi (by simp)
  | x :: xs, 0, hnd, _ => by
    have hx : x ∉ xs := (List.nodup_cons.mp hnd).1
    unfold lastIdxOf
    simp only [List.getD_cons_zero]
    rw [lastIdxOf_eq_none hx]
    simp
  | x :: xs, i + 1, hnd, hi => by
    have hrec := lastIdxOf_getD xs i (List.nodup_cons.mp hnd).2 (Nat.lt_of_succ_lt_succ hi)
    unfold lastIdxOf
    simp only [List.getD_cons_succ]
    rw [hrec]

theorem questionToIndex_getD (l : List String) (i : Nat) (hnd : l.Nodup)
    (hi : i < l.length) : questionToIndex l (l.getD i "") = i := by
  unfold questionToIndex
  rw [lastIdxOf_getD l i hnd hi]

theorem pairwise_key_lt_of_le_of_ne {α : Type} {k : α → Nat} {l : List α}
    (h1 : l.Pairwise (fun a b => k a ≤ k b))
    (h2 : l.Pairwise (fun a b => k a ≠ k b)) :
    l.Pairwise (fun a b => k a < k b) := by
  induction l with
  | nil => exact List.Pairwise.nil
  | cons x xs ih =>
    rw [List.pairwise_cons] at h1 h2 ⊢
    exact ⟨fun b hb => Nat.lt_of_le_of_ne (h1.1 b hb) (h2.1 b hb), ih h1.2 h2.2⟩

theorem sortResults_sorted (questions : List String) (results : List QuestionResult) :
    (sortResults questions results).Pairwise
      (fun a b => questionToIndex questions a.question ≤ questionToIndex questions b.question) := by
  haveI : IsTotal QuestionResult
      (fun a b => questionToIndex questions a.question ≤ questionToIndex questions b.question) :=
    ⟨fun a b => Nat.le_total _ _⟩
  haveI : IsTrans QuestionResult
      (fun a b => questionToIndex questions a.question ≤ questionToIndex questions b.question) :=
    ⟨fun a b c hab hbc => Nat.le_trans hab hbc⟩
  exact List.sorted_insertionSort _ _

/-- With pairwise-distinct questions, collecting in any completion order and
then stable-sorting by the question-index key reproduces the canonical
input-order list of results. -/
theorem sortResults_eq_canonical (questions : List String) (units : Nat → FutureOutcome)
    (order : List Nat) (hnd : questions.Nodup)
    (hperm : order.Perm (List.range questions.length)) :
    sortResults questions (collectInOrder questions units order)
      = (List.range questions.length).map
          (fun i => runFuture (units i) (questions.getD i "")) := by
  have hkeyf : ∀ i, i < questions.length →
      questionToIndex questions ((runFuture (units i) (questions.getD i "")).question) = i := by
    intro i hi
    rw [runFuture_question]
    exact questionToIndex_getD questions i hnd hi
  have hperm2 : (collectInOrder questions units order).Perm
      ((List.range questions.length).map
        (fun i => runFuture (units i) (questions.getD i ""))) :=
    hperm.map _
  have hsort_perm : (sortResults questions (collectInOrder questions units order)).Perm
      ((List.range questions.length).map
        (fun i => runFuture (units i) (questions.getD i ""))) :=
    (List.perm_insertionSort _ _).trans hperm2
  have hcan_lt : ((List.range questions.length).map
      (fun i => runFuture (units i) (questions.getD i ""))).Pairwise
      (fun a b => questionToIndex questions a.question < questionToIndex questions b.question) := by
    rw [List.pairwise_map]
    refine (List.pairwise_lt_range questions.length).imp_of_mem ?_
    intro a b ha hb hab
    rw [hkeyf a (List.mem_range.mp ha), hkeyf b (List.mem_range.mp hb)]
    exact hab
  have hne_pair : (sortResults questions (collectInOrder questions units order)).Pairwise
      (fun a b => questionToIndex questions a.question ≠ questionToIndex questions b.question) := by
    refine (List.Perm.pairwise_iff (fun {x y} h => fun he => h he.symm) hsort_perm).mpr ?_
    exact hcan_lt.imp (fun h => Nat.ne_of_lt h)
  have hsorted_lt : (sortResults questions (collectInOrder questions units order)).Pairwise
      (fun a b => questionToIndex questions a.question < questionToIndex questions b.question) :=
    pairwise_key_lt_of_le_of_ne
      (k := fun r : QuestionResult => questionToIndex questions r.question)
      (sortResults_sorted questions _) hne_pair
  haveI : IsAntisymm QuestionResult
      (fun a b => questionToIndex questions a.question < questionToIndex questions b.question) :=
    ⟨fun a b h1 h2 => absurd (Nat.lt_trans h1 h2) (Nat.lt_irrefl _)⟩
  exact List.eq_of_perm_of_sorted hsort_perm hsorted_lt hcan_lt

/-- C1 counterexample: with a DUPLICATED question the last-index sort key
misplaces results.  For questions `["a", "b", "a"]` completing in
submission order, the batch returns questions in order `["b", "a", "a"]`,
so position 0 does not hold the first input question. -/
theorem process_questions_parallel_order_cex :
    (process_questions_parallel [ "a", "b", "a"]
        (fun _ => FutureOutcome.completed unitOkW) [0, 1, 2]).map
        (fun r => r.question)
      = [ "b", "a", "a"]
    ∧ ([ "b", "a", "a"] : List String) ≠ [ "a", "b", "a"] :=
  ⟨rfl, by decide⟩

/-- C1 amended: for every non-empty question list and every completion
order (any permutation of the future indices) the output length equals the
input length; when the questions are additionally pairwise distinct, the
output is exactly the canonical input-order list of per-future results, so
the result at position i carries the i-th input question. -/
theorem process_questions_parallel_ordered (questions : List String)
    (units : Nat → FutureOutcome) (order : List Nat)
    (hperm : order.Perm (List.range questions.length))
    (hne : questions ≠ []) :
    (process_questions_parallel questions units order).length = questions.length
    ∧ (questions.Nodup →
        process_questions_parallel questions units order
          = (List.range questions.length).map
              (fun i => runFuture (units i) (questions.getD i ""))
        ∧ ∀ i, i < questions.length →
            ((process_questions_parallel questions units order).getD i dummyResult).question
              = questions.getD i "") := by
  have hnemp : questions.isEmpty = false := by
    cases questions with
    | nil => exact absurd rfl hne
    | cons a l => rfl
  have hpqp : process_questions_parallel questions units order
      = sortResults questions (collectInOrder questions units order) := by
    simp [process_questions_parallel, hnemp]
  constructor
  · rw [hpqp]
    calc (sortResults questions (collectInOrder questions units order)).length
        = (collectInOrder questions units order).length :=
          (List.perm_insertionSort _ _).length_eq
      _ = order.length := by
          unfold collectInOrder
          rw [List.length_map]
      _ = (List.range questions.length).length := hperm.length_eq
      _ = questions.length := List.length_range _
  · intro hnd
    have hmain := sortResults_eq_canonical questions units order hnd hperm
    refine ⟨by rw [hpqp, hmain], ?_⟩
    intro i hi
    rw [hpqp, hmain]
    have hlen : i < ((List.range questions.length).map
        (fun j => runFuture (units j) (questions.getD j ""))).length := by
      rw [List.length_map, List.length_range]
      exact hi
    rw [List.getD_eq_getElem?_getD, List.getElem?_eq_getElem hlen]
    simp only [Option.getD_some, List.getElem_map, List.getElem_range]
    exact runFuture_question _ _

theorem process_questions_parallel_ordered_witness :
    (process_questions_parallel [ "a", "b"]
        (fun _ => FutureOutcome.completed unitOkW) [1, 0]).length = 2
    ∧ ((process_questions_parallel [ "a", "b"]
        (fun _ => FutureOutcome.completed unitOkW) [1, 0]).getD 0 dummyResult).question = "a"
    ∧ ((process_questions_parallel [ "a", "b"]
        (fun _ => FutureOutcome.completed unitOkW) [1, 0]).getD 1 dummyResult).question = "b" :=
  ⟨(process_questions_parallel_ordered [ "a", "b"]
      (fun _ => FutureOutcome.completed unitOkW) [1, 0] (by decide) (by decide)).1,
   ((process_questions_parallel_ordered [ "a", "b"]
      (fun _ => FutureOutcome.completed unitOkW) [1, 0] (by decide) (by decide)).2
      (by decide)).2 0 (by decide),
   ((process_questions_parallel_ordered [ "a", "b"]
      (fun _ => FutureOutcome.completed unitOkW) [1, 0] (by decide) (by decide)).2
      (by decide)).2 1 (by decide)⟩

/-- C2 (code bug): the per-question 30-time-unit timeout can never fire.
First conjunct: a unit that completes only after 40 time-units (sibling at
5) still yields two success-status results — no
`"Processing failed: ..."` error result appears, because `as_completed`
only yields completed futures, so `future.result(timeout=30)` always
returns immediately.  Second conjunct: a unit that NEVER completes makes
the batch call block forever in `as_completed` (modelled as `none`) — it
does not produce the error-status result at position 0 that the
specification promises. -/
theorem orchestrator_timeout_never_fires :
    (process_questions_parallel_timed [ "q0", "q1"]
        (fun _ => FutureOutcome.completed unitOkW)
        (fun i => if i = 0 then some 40 else some 5)).map
        (fun rs => rs.map (fun r => r.status))
      = some [ "success", "success"]
    ∧ process_questions_parallel_timed [ "q0", "q1"]
        (fun _ => FutureOutcome.completed unitOkW)
        (fun i => if i = 0 then none else some 5)
      = none :=
  ⟨rfl, rfl⟩
